import Mathlib

/-!
Shallow embedding of `hdf5plugin/__init__.py` (the compression-options
encoders, the HDF5 version gate and the filter-registration pass) together
with theorems checking the specification's claims against it.

Python conventions are modelled as follows: a Python exception becomes a
`PyError` value returned through `Except`; a Python value that may be an
`int`, a `float` or a `str` becomes a `PyVal` (floats are modelled as
rationals, which every IEEE float is); `int(x)` becomes `pyInt`;
tuples of ints become `List Int`.
-/

namespace Hdf5plugin

/-- Python exceptions raised by the embedded code.  The spec's error taxonomy
maps onto these: `ConfigError` and `UnknownFilter` are `assert` failures
(`assertionError`), a missing artifact surfaces as `indexError` (from `[0]`
on an empty `glob` result), a dynamic-load failure as `osError` (from
`ctypes.CDLL`), a bad dict key as `keyError`. -/
inductive PyError where
  | assertionError
  | keyError
  | indexError
  | osError
  | typeError
  | valueError
  deriving DecidableEq, Repr

/-- A Python value passed to the encoders: an int, a decimal string, or a
float (modelled as a rational number). -/
inductive PyVal where
  | int (n : Int)
  | str (s : String)
  | rat (q : ℚ)
  deriving DecidableEq, Repr

/-- `int(f)` on a Python float: truncation toward zero of the rational. -/
def pyTrunc (q : ℚ) : Int :=
  if 0 ≤ q.num then ((q.num.toNat / q.den : Nat) : Int)
  else -((((-q.num).toNat / q.den : Nat) : Int))

/-- Decimal digit-string parser used to model `int` on strings. -/
def parseDigits : List Char → Option Nat
  | [] => none
  | cs =>
    if cs.all (fun c => c.isDigit) then
      some (cs.foldl (fun a c => a * 10 + (c.toNat - 48)) 0)
    else none

/-- `int(s)` on a Python string: an optional sign followed by decimal digits;
anything else raises `ValueError`. -/
def pyStrToInt (s : String) : Except PyError Int :=
  match s.toList with
  | '-' :: rest =>
    match parseDigits rest with
    | some n => .ok (-(n : Int))
    | none => .error .valueError
  | '+' :: rest =>
    match parseDigits rest with
    | some n => .ok ((n : Int))
    | none => .error .valueError
  | cs =>
    match parseDigits cs with
    | some n => .ok ((n : Int))
    | none => .error .valueError

/-- The `int(...)` coercion each encoder applies to its numeric argument. -/
def pyInt : PyVal → Except PyError Int
  | .int n => .ok n
  | .str s => pyStrToInt s
  | .rat q => .ok (pyTrunc q)

/-- Blosc filter ID. -/
def BLOSC : Int := 32001

/-- Bitshuffle filter ID. -/
def BSHUF : Int := 32008

/-- LZ4 filter ID. -/
def LZ4 : Int := 32004

/-- `FILTERS = {'blosc': BLOSC, 'bshuf': BSHUF, 'lz4': LZ4}` in its
(insertion-order) iteration order. -/
def FILTERS : List (String × Int) := [("blosc", BLOSC), ("bshuf", BSHUF), ("lz4", LZ4)]

/-- Lookup in the `_blosc_shuffle` dict
`{None: 0, 'none': 0, 'byte': 1, 'bit': 2}`; a missing key raises
`KeyError`.  `Option String` models a value that is `None` or a string. -/
def _blosc_shuffle : Option String → Except PyError Int
  | none => .ok 0
  | some "none" => .ok 0
  | some "byte" => .ok 1
  | some "bit" => .ok 2
  | some _ => .error .keyError

/-- Lookup in the `_blosc_compression` dict
`{'blosclz': 0, 'lz4': 1, 'lz4hc': 2, 'zlib': 4, 'zstd': 5}`
(3, the unbuilt snappy, is absent); a missing key raises `KeyError`. -/
def _blosc_compression : String → Except PyError Int
  | "blosclz" => .ok 0
  | "lz4" => .ok 1
  | "lz4hc" => .ok 2
  | "zlib" => .ok 4
  | "zstd" => .ok 5
  | _ => .error .keyError

/-- `_blosc_options(level=9, shuffle='byte', compression='blosclz')`:
`level = int(level); assert 0 <= level <= 9;` dict lookups;
`return (0, 0, 0, 0, level, shuffle, compression)`. -/
def _blosc_options (level : PyVal) (shuffle : Option String) (compression : String) :
    Except PyError (List Int) :=
  match pyInt level with
  | .error e => .error e
  | .ok lv =>
    if 0 ≤ lv ∧ lv ≤ 9 then
      match _blosc_shuffle shuffle with
      | .error e => .error e
      | .ok s =>
        match _blosc_compression compression with
        | .error e => .error e
        | .ok c => .ok [0, 0, 0, 0, lv, s, c]
    else .error .assertionError

/-- `_bshuf_options(nelems=0, lz4=True)`:
`nelems = int(nelems); assert nelems % 8 == 0;
lz4_enabled = 2 if lz4 else 0; return (nelems, lz4_enabled)`.
Python `%` on a positive modulus is `Int.emod`. -/
def _bshuf_options (nelems : PyVal) (lz4 : Bool) : Except PyError (List Int) :=
  match pyInt nelems with
  | .error e => .error e
  | .ok ne =>
    if Int.emod ne 8 = 0 then
      .ok [ne, if lz4 then 2 else 0]
    else .error .assertionError

/-- `_lz4_options(nbytes=0)`:
`nbytes = int(nbytes); assert 0 <= nbytes <= 0x7E000000; return (nbytes,)`. -/
def _lz4_options (nbytes : PyVal) : Except PyError (List Int) :=
  match pyInt nbytes with
  | .error e => .error e
  | .ok nb =>
    if 0 ≤ nb ∧ nb ≤ 0x7E000000 then .ok [nb]
    else .error .assertionError

/-- The keyword arguments a caller may pass to `compression_opts`.  Each field
is `none` when the keyword is absent; the union of the three encoders'
keyword names.  `shuffle`'s value may itself be Python `None`. -/
structure Kwargs where
  level : Option PyVal
  shuffle : Option (Option String)
  compression : Option String
  nelems : Option PyVal
  lz4 : Option Bool
  nbytes : Option PyVal

/-- The empty keyword-argument set. -/
def noKwargs : Kwargs := ⟨none, none, none, none, none, none⟩

/-- `_blosc_options(**kwargs)`: a keyword not in the signature raises
`TypeError`; absent keywords take the Python defaults
(`level=9, shuffle='byte', compression='blosclz'`). -/
def _blosc_options_kw (k : Kwargs) : Except PyError (List Int) :=
  if k.nelems.isSome ∨ k.lz4.isSome ∨ k.nbytes.isSome then .error .typeError
  else _blosc_options (k.level.getD (.int 9)) (k.shuffle.getD (some "byte"))
    (k.compression.getD "blosclz")

/-- `_bshuf_options(**kwargs)`: a keyword not in the signature raises
`TypeError`; absent keywords take the Python defaults (`nelems=0, lz4=True`). -/
def _bshuf_options_kw (k : Kwargs) : Except PyError (List Int) :=
  if k.level.isSome ∨ k.shuffle.isSome ∨ k.compression.isSome ∨ k.nbytes.isSome then
    .error .typeError
  else _bshuf_options (k.nelems.getD (.int 0)) (k.lz4.getD true)

/-- `_lz4_options(**kwargs)`: a keyword not in the signature raises
`TypeError`; an absent `nbytes` takes the Python default `0`. -/
def _lz4_options_kw (k : Kwargs) : Except PyError (List Int) :=
  if k.level.isSome ∨ k.shuffle.isSome ∨ k.compression.isSome ∨ k.nelems.isSome ∨
      k.lz4.isSome then .error .typeError
  else _lz4_options (k.nbytes.getD (.int 0))

/-- The first argument of `compression_opts`: a filter name string or a
numeric filter ID. -/
inductive NameOrId where
  | name (s : String)
  | fid (n : Int)
  deriving DecidableEq, Repr

/-- The dict `{'compression': <id>, 'compression_opts': <tuple>}` returned by
`compression_opts`. -/
structure CompressionSpec where
  compression : Int
  compression_opts : List Int
  deriving DecidableEq, Repr

/-- `compression_opts(name, **kwargs)`:
`assert name in ('blosc', BLOSC, 'bshuf', BSHUF, 'lz4', LZ4)` (failure is the
spec's `UnknownFilter`), then dispatch to the matching encoder and pair its
tuple with the numeric filter ID. -/
def compression_opts (name : NameOrId) (kwargs : Kwargs) : Except PyError CompressionSpec :=
  if name = .name "blosc" ∨ name = .fid BLOSC then
    match _blosc_options_kw kwargs with
    | .error e => .error e
    | .ok o => .ok ⟨BLOSC, o⟩
  else if name = .name "bshuf" ∨ name = .fid BSHUF then
    match _bshuf_options_kw kwargs with
    | .error e => .error e
    | .ok o => .ok ⟨BSHUF, o⟩
  else if name = .name "lz4" ∨ name = .fid LZ4 then
    match _lz4_options_kw kwargs with
    | .error e => .error e
    | .ok o => .ok ⟨LZ4, o⟩
  else .error .assertionError

/-- Python `<` on two `(major, minor, patch)` tuples: lexicographic. -/
def pyLt3 (x y : Nat × Nat × Nat) : Bool :=
  decide (x.1 < y.1) ||
    (decide (x.1 = y.1) &&
      (decide (x.2.1 < y.2.1) || (decide (x.2.1 = y.2.1) && decide (x.2.2 < y.2.2))))

/-- Python `<=` on two `(major, minor, patch)` tuples. -/
def pyLe3 (x y : Nat × Nat × Nat) : Bool := pyLt3 x y || decide (x = y)

/-- Python `<` between a 3-tuple and a 2-tuple: lexicographic; when the
2-tuple is a proper prefix of the 3-tuple the shorter tuple is smaller, so
the comparison is decided on the first two components alone. -/
def pyLt32 (x : Nat × Nat × Nat) (y : Nat × Nat) : Bool :=
  decide (x.1 < y.1) || (decide (x.1 = y.1) && decide (x.2.1 < y.2))

/-- The availability-check gate of `_init_filters`:
`(1, 8, 20) <= hdf5_version < (1, 10) or hdf5_version >= (1, 10, 2)`
(a Python chained comparison). -/
def shouldCheckAvailability (v : Nat × Nat × Nat) : Bool :=
  (pyLe3 (1, 8, 20) v && pyLt32 v (1, 10)) || pyLe3 (1, 10, 2) v

/-- Spec-side lexicographic `<` on version triples, written from the spec's
interval notation. -/
def lexLt (x y : Nat × Nat × Nat) : Prop :=
  x.1 < y.1 ∨ (x.1 = y.1 ∧ (x.2.1 < y.2.1 ∨ (x.2.1 = y.2.1 ∧ x.2.2 < y.2.2)))

/-- Spec-side lexicographic `<=` on version triples. -/
def lexLe (x y : Nat × Nat × Nat) : Prop := lexLt x y ∨ x = y

/-- Modelled from the spec's words: the version is in `[1.8.20, 1.10.0)` or
is `>= 1.10.2`. -/
def specGate (v : Nat × Nat × Nat) : Prop :=
  (lexLe (1, 8, 20) v ∧ lexLt v (1, 10, 0)) ∨ lexLe (1, 10, 2) v

/-- The host environment `_init_filters` runs against: the h5py/HDF5 library,
the filesystem and the native artifacts.  `glob name` is the (ordered) result
of `glob(os.path.join(PLUGINS_PATH, 'libh5' + name + '*'))`; `load_ok f` says
whether `ctypes.CDLL(f)` succeeds; `register_filter name` / `init_filter name`
are the `int32` results of the two platform entry points of filter `name`'s
artifact.  All are deterministic functions of the environment. -/
structure HostEnv where
  hdf5_version : Nat × Nat × Nat
  windows : Bool
  glob : String → List String
  load_ok : String → Bool
  register_filter : String → Int
  init_filter : String → Int

/-- The mutable host-side state: the set of filter IDs the host's
`h5py.h5z.filter_avail` reports as registered.  A successful native
entry-point call registers the filter, adding its ID. -/
structure HostState where
  registered : List Int
  deriving DecidableEq, Repr

/-- Register a filter ID with the host (set insertion, so re-registering
an already-registered filter leaves the state unchanged). -/
def addReg (fid : Int) (st : HostState) : HostState :=
  if fid ∈ st.registered then st else ⟨fid :: st.registered⟩

/-- The native entry-point return value for one filter:
`register_filter()` on Windows, `init_filter(libname)` elsewhere. -/
def retvalOf (env : HostEnv) (name : String) : Int :=
  if env.windows then env.register_filter name else env.init_filter name

/-- One iteration of the loop body of `_init_filters` for filter
`(name, fid)`:
`.ok (none, st)` models `continue` (skip, nothing yielded),
`.ok (some (filename, handle), st)` models `yield filename, lib`, and
`.error e` models an uncaught exception escaping the generator.
The library handle is modelled by the artifact's filename. -/
def initOne (env : HostEnv) (st : HostState) (name : String) (fid : Int) :
    Except PyError (Option (String × String) × HostState) :=
  if shouldCheckAvailability env.hdf5_version = true ∧ fid ∈ st.registered then
    .ok (none, st)
  else
    match env.glob name with
    | [] => .error .indexError
    | filename :: _ =>
      if env.load_ok filename then
        if retvalOf env name < 0 then .ok (none, st)
        else .ok (some (filename, filename), addReg fid st)
      else .error .osError

/-- The loop of `_init_filters` over a catalog of `(name, id)` pairs,
threading the host state and collecting the yielded pairs in order. -/
def initFiltersAux (env : HostEnv) : List (String × Int) → HostState →
    Except PyError (List (String × String) × HostState)
  | [], st => .ok ([], st)
  | (name, fid) :: rest, st =>
    match initOne env st name fid with
    | .error e => .error e
    | .ok (none, st1) => initFiltersAux env rest st1
    | .ok (some p, st1) =>
      match initFiltersAux env rest st1 with
      | .error e => .error e
      | .ok (ps, st2) => .ok (p :: ps, st2)

/-- `dict(_init_filters())` over the fixed `FILTERS` catalog: the filename-
keyed association list of newly loaded filters, with the final host state;
an uncaught exception from the generator propagates out. -/
def _init_filters (env : HostEnv) (st : HostState) :
    Except PyError (List (String × String) × HostState) :=
  initFiltersAux env FILTERS st

/-- The artifact filename the loop resolves for a catalog entry: the first
glob match (the loop only reaches it when the glob result is non-empty). -/
def artifactOf (env : HostEnv) (p : String × Int) : String := (env.glob p.1).headD ""

/-- A catalog entry that the pass, started in state `st`, newly and
successfully loads: not skipped by the availability check and with a
non-negative native entry-point status. -/
def newlyLoaded (env : HostEnv) (st : HostState) (p : String × Int) : Bool :=
  (!(shouldCheckAvailability env.hdf5_version && decide (p.2 ∈ st.registered))) &&
    decide (0 ≤ retvalOf env p.1)

/-- A concrete healthy host: version 1.8.20 (gate allows the availability
query), non-Windows, every artifact present and loadable, every native
entry point returning 0. -/
def env0 : HostEnv :=
  ⟨(1, 8, 20), false, fun n => ["/plugins/libh5" ++ n ++ ".so"], fun _ => true,
    fun _ => 0, fun _ => 0⟩

/-- A host on buggy HDF5 1.10.1 (gate forbids the query) where the `blosc`
artifact is missing: the glob for `blosc` matches nothing. -/
def envNF : HostEnv :=
  ⟨(1, 10, 1), false, fun n => if n = "blosc" then [] else ["/plugins/libh5" ++ n ++ ".so"],
    fun _ => true, fun _ => 0, fun _ => 0⟩

/-- A host where the `blosc` artifact exists but the dynamic loader fails to
open it. -/
def envLE : HostEnv :=
  ⟨(1, 8, 20), false, fun n => ["/plugins/libh5" ++ n ++ ".so"],
    fun f => f ≠ "/plugins/libh5blosc.so", fun _ => 0, fun _ => 0⟩

/-- A host where the `blosc` artifact loads but its native entry point
returns a negative status (a simulated `InitError`), while the other two
filters are healthy. -/
def envIF : HostEnv :=
  ⟨(1, 8, 20), false, fun n => ["/plugins/libh5" ++ n ++ ".so"], fun _ => true,
    fun n => if n = "blosc" then -1 else 0, fun n => if n = "blosc" then -1 else 0⟩

/-- The values of the `_blosc_compression` dict: any successful compressor
lookup yields one of `0, 1, 2, 4, 5` (never `3`). -/
theorem blosc_compression_values (cp : String) (c : Int)
    (h : _blosc_compression cp = .ok c) : c = 0 ∨ c = 1 ∨ c = 2 ∨ c = 4 ∨ c = 5 := by
  unfold _blosc_compression at h
  split at h <;> simp_all

/-- C1: `shouldCheckAvailability` is a pure function of the version triple
returning `true` exactly on `[1.8.20, 1.10.0) ∪ [1.10.2, ∞)`; in particular
it is `false` at `(1,10,0)`, `(1,10,1)`, `(1,8,19)` and `true` at
`(1,8,20)`, `(1,10,2)`. -/
theorem C1_version_gate :
    (∀ v : Nat × Nat × Nat, shouldCheckAvailability v = true ↔ specGate v) ∧
    shouldCheckAvailability (1, 10, 0) = false ∧
    shouldCheckAvailability (1, 10, 1) = false ∧
    shouldCheckAvailability (1, 8, 19) = false ∧
    shouldCheckAvailability (1, 8, 20) = true ∧
    shouldCheckAvailability (1, 10, 2) = true := by
  refine ⟨?_, by decide, by decide, by decide, by decide, by decide⟩
  rintro ⟨a, b, c⟩
  simp only [shouldCheckAvailability, pyLe3, pyLt3, pyLt32, specGate, lexLe, lexLt,
    Bool.or_eq_true, Bool.and_eq_true, decide_eq_true_eq, Prod.mk.injEq]
  omega

/-- C3: for every level in `0..9` and every shuffle/compressor of the spec's
enumerations (shuffle codes `{none:0, byte:1, bit:2}`, compressor codes
`{blosclz:0, lz4:1, lz4hc:2, zlib:4, zstd:5}`), `_blosc_options` returns
exactly `(0, 0, 0, 0, level, shuffleCode, compressorCode)`; any level outside
`0..9` raises the assertion (the spec's `ConfigError`); and every 7-tuple it
ever returns has a compressor code distinct from `3`. -/
theorem C3_encode_general :
    (∀ (l : Int) (sh : Option String) (cp : String) (sc cc : Int),
      (sh, sc) ∈ ([(none, 0), (some "none", 0), (some "byte", 1), (some "bit", 2)] :
        List (Option String × Int)) →
      (cp, cc) ∈ ([("blosclz", 0), ("lz4", 1), ("lz4hc", 2), ("zlib", 4), ("zstd", 5)] :
        List (String × Int)) →
      0 ≤ l → l ≤ 9 →
      _blosc_options (.int l) sh cp = .ok [0, 0, 0, 0, l, sc, cc]) ∧
    (∀ (l : Int) (sh : Option String) (cp : String),
      l < 0 ∨ 9 < l → _blosc_options (.int l) sh cp = .error .assertionError) ∧
    (∀ (v : PyVal) (sh : Option String) (cp : String) (out : List Int),
      _blosc_options v sh cp = .ok out → out.length = 7 ∧ out.getD 6 0 ≠ 3) := by
  refine ⟨?_, ?_, ?_⟩
  · intro l sh cp sc cc hs hc h0 h9
    simp only [List.mem_cons, List.not_mem_nil, or_false, Prod.mk.injEq] at hs hc
    rcases hs with ⟨rfl, rfl⟩ | ⟨rfl, rfl⟩ | ⟨rfl, rfl⟩ | ⟨rfl, rfl⟩ <;>
      rcases hc with ⟨rfl, rfl⟩ | ⟨rfl, rfl⟩ | ⟨rfl, rfl⟩ | ⟨rfl, rfl⟩ | ⟨rfl, rfl⟩ <;>
      simp [_blosc_options, pyInt, _blosc_shuffle, _blosc_compression, h0, h9]
  · intro l sh cp h
    have hn : ¬(0 ≤ l ∧ l ≤ 9) := by omega
    simp [_blosc_options, pyInt, hn]
  · intro v sh cp out h
    unfold _blosc_options at h
    split at h
    · simp at h
    · split at h
      · split at h
        · simp at h
        · split at h
          · simp at h
          · rename_i x1 lv hlv hcond x2 s hs x3 c hc
            obtain rfl : [0, 0, 0, 0, lv, s, c] = out := by simpa using h
            refine ⟨rfl, ?_⟩
            have := blosc_compression_values cp c hc
            simp only [List.getD_cons_succ, List.getD_cons_zero]
            omega
      · simp at h

/-- Witness for C3 at `level = 5`, `shuffle = 'bit'`, `compression = 'zstd'`. -/
theorem C3_encode_general_witness :
    _blosc_options (.int 5) (some "bit") "zstd" = .ok [0, 0, 0, 0, 5, 2, 5] :=
  C3_encode_general.1 5 (some "bit") "zstd" 2 5 (by decide) (by decide) (by decide) (by decide)

/-- C4: `_bshuf_options` returns `(blockElements, 2)` or `(blockElements, 0)`
according to the lz4 flag whenever `blockElements` is a multiple of 8, and
raises the assertion (the spec's `ConfigError`) otherwise; in particular
`(16, False) ↦ (16, 0)` and `7` raises. -/
theorem C4_encode_shuffle :
    (∀ (ne : Int) (b : Bool), Int.emod ne 8 = 0 →
      _bshuf_options (.int ne) b = .ok [ne, if b then 2 else 0]) ∧
    (∀ (ne : Int) (b : Bool), Int.emod ne 8 ≠ 0 →
      _bshuf_options (.int ne) b = .error .assertionError) ∧
    _bshuf_options (.int 16) false = .ok [16, 0] ∧
    _bshuf_options (.int 7) true = .error .assertionError := by
  refine ⟨?_, ?_, by rfl, by rfl⟩
  · intro ne b h
    simp [_bshuf_options, pyInt, h]
  · intro ne b h
    simp [_bshuf_options, pyInt, h]

/-- Witness for C4 at `blockElements = 24`, `useFastCompressor = true`. -/
theorem C4_encode_shuffle_witness :
    _bshuf_options (.int 24) true = .ok [24, if true then 2 else 0] :=
  C4_encode_shuffle.1 24 true (by decide)

/-- C5: `_lz4_options` returns `(blockBytes,)` exactly on
`0 ≤ blockBytes ≤ 0x7E000000` and raises the assertion (the spec's
`ConfigError`) outside; the upper bound itself succeeds and
`0x7E000001` raises. -/
theorem C5_encode_fast :
    (∀ nb : Int, 0 ≤ nb → nb ≤ 0x7E000000 → _lz4_options (.int nb) = .ok [nb]) ∧
    (∀ nb : Int, nb < 0 ∨ 0x7E000000 < nb → _lz4_options (.int nb) = .error .assertionError) ∧
    _lz4_options (.int 0x7E000000) = .ok [0x7E000000] ∧
    _lz4_options (.int 0x7E000001) = .error .assertionError := by
  refine ⟨?_, ?_, by rfl, by rfl⟩
  · intro nb h0 h1
    simp [_lz4_options, pyInt, h0, h1]
  · intro nb h
    have hn : ¬(0 ≤ nb ∧ nb ≤ 0x7E000000) := by omega
    simp [_lz4_options, pyInt, hn]

/-- Witness for C5 at `blockBytes = 4096`. -/
theorem C5_encode_fast_witness : _lz4_options (.int 4096) = .ok [4096] :=
  C5_encode_fast.1 4096 (by decide) (by decide)

/-- C6: `compression_opts` accepts exactly the three known filters, by name
or numeric ID, delegates the keyword arguments to the matching encoder and
pairs the numeric filter ID with the encoder's tuple (errors included, via
`Except.map`); any other name or ID fails the assertion (the spec's
`UnknownFilter`); and `("bshuf", nelems=0, lz4=True)` yields ID `32008` with
options `(0, 2)`. -/
theorem C6_dispatch :
    (∀ (n : NameOrId) (k : Kwargs), n = .name "blosc" ∨ n = .fid 32001 →
      compression_opts n k = (_blosc_options_kw k).map fun o => ⟨BLOSC, o⟩) ∧
    (∀ (n : NameOrId) (k : Kwargs), n = .name "bshuf" ∨ n = .fid 32008 →
      compression_opts n k = (_bshuf_options_kw k).map fun o => ⟨BSHUF, o⟩) ∧
    (∀ (n : NameOrId) (k : Kwargs), n = .name "lz4" ∨ n = .fid 32004 →
      compression_opts n k = (_lz4_options_kw k).map fun o => ⟨LZ4, o⟩) ∧
    (∀ (n : NameOrId) (k : Kwargs),
      n ∉ ([.name "blosc", .fid 32001, .name "bshuf", .fid 32008, .name "lz4", .fid 32004] :
        List NameOrId) →
      compression_opts n k = .error .assertionError) ∧
    compression_opts (.name "bshuf") ⟨none, none, none, some (.int 0), some true, none⟩ =
      .ok ⟨32008, [0, 2]⟩ := by
  refine ⟨?_, ?_, ?_, ?_, by rfl⟩
  · rintro n k (rfl | rfl) <;>
      · unfold compression_opts
        rw [if_pos (by simp [BLOSC])]
        cases h : _blosc_options_kw k <;> simp [Except.map]
  · rintro n k (rfl | rfl) <;>
      · unfold compression_opts
        rw [if_neg (by simp [BLOSC]), if_pos (by simp [BSHUF])]
        cases h : _bshuf_options_kw k <;> simp [Except.map]
  · rintro n k (rfl | rfl) <;>
      · unfold compression_opts
        rw [if_neg (by simp [BLOSC]), if_neg (by simp [BSHUF]), if_pos (by simp [LZ4])]
        cases h : _lz4_options_kw k <;> simp [Except.map]
  · intro n k hn
    simp only [List.mem_cons, List.not_mem_nil, or_false, not_or] at hn
    obtain ⟨h1, h2, h3, h4, h5, h6⟩ := hn
    unfold compression_opts
    simp only [BLOSC, BSHUF, LZ4]
    rw [if_neg (not_or.mpr ⟨h1, h2⟩), if_neg (not_or.mpr ⟨h3, h4⟩),
      if_neg (not_or.mpr ⟨h5, h6⟩)]

/-- Witness for C6: the blosc branch at empty kwargs. -/
theorem C6_dispatch_witness :
    compression_opts (.name "blosc") noKwargs =
      (_blosc_options_kw noKwargs).map fun o => ⟨BLOSC, o⟩ :=
  C6_dispatch.1 (.name "blosc") noKwargs (Or.inl rfl)

/-- Membership after registering an ID. -/
theorem mem_addReg (x fid : Int) (st : HostState) :
    x ∈ (addReg fid st).registered ↔ x = fid ∨ x ∈ st.registered := by
  unfold addReg
  split
  · rename_i hmem
    constructor
    · exact Or.inr
    · rintro (rfl | hx)
      · exact hmem
      · exact hx
  · simp [List.mem_cons]

/-- A loop iteration only grows the host's registered set. -/
theorem initOne_mono (env : HostEnv) (st : HostState) (name : String) (fid : Int)
    (o : Option (String × String)) (st2 : HostState)
    (h : initOne env st name fid = .ok (o, st2)) :
    ∀ x, x ∈ st.registered → x ∈ st2.registered := by
  unfold initOne at h
  split at h
  · simp only [Except.ok.injEq, Prod.mk.injEq] at h
    obtain ⟨-, rfl⟩ := h
    exact fun x hx => hx
  · split at h
    · exact absurd h (by simp)
    · split at h
      · split at h
        · simp only [Except.ok.injEq, Prod.mk.injEq] at h
          obtain ⟨-, rfl⟩ := h
          exact fun x hx => hx
        · simp only [Except.ok.injEq, Prod.mk.injEq] at h
          obtain ⟨-, rfl⟩ := h
          exact fun x hx => (mem_addReg x fid st).mpr (Or.inr hx)
      · exact absurd h (by simp)

/-- The whole pass only grows the host's registered set. -/
theorem initFiltersAux_mono (env : HostEnv) :
    ∀ (L : List (String × Int)) (st : HostState) (fs : List (String × String))
      (st1 : HostState), initFiltersAux env L st = .ok (fs, st1) →
      ∀ x, x ∈ st.registered → x ∈ st1.registered := by
  intro L
  induction L with
  | nil =>
    intro st fs st1 h x hx
    simp only [initFiltersAux, Except.ok.injEq, Prod.mk.injEq] at h
    obtain ⟨-, rfl⟩ := h
    exact hx
  | cons p rest ih =>
    obtain ⟨name, fid⟩ := p
    intro st fs st1 h x hx
    unfold initFiltersAux at h
    split at h
    · exact absurd h (by simp)
    · rename_i st' hone
      exact ih st' fs st1 h x (initOne_mono env st name fid none st' hone x hx)
    · rename_i pr st' hone
      split at h
      · exact absurd h (by simp)
      · rename_i ps st'' htail
        simp only [Except.ok.injEq, Prod.mk.injEq] at h
        obtain ⟨-, rfl⟩ := h
        exact ih st' ps st'' htail x (initOne_mono env st name fid (some pr) st' hone x hx)

/-- What a completed loop iteration guarantees about its filter: either the
availability query was permitted and the ID ended up registered, or the
artifact resolved, loaded, and a non-negative status implies the ID ended up
registered. -/
theorem initOne_cases (env : HostEnv) (st : HostState) (name : String) (fid : Int)
    (o : Option (String × String)) (st2 : HostState)
    (h : initOne env st name fid = .ok (o, st2)) :
    (shouldCheckAvailability env.hdf5_version = true ∧ fid ∈ st2.registered) ∨
    (env.glob name ≠ [] ∧ env.load_ok ((env.glob name).headD "") = true ∧
      (0 ≤ retvalOf env name → fid ∈ st2.registered)) := by
  unfold initOne at h
  split at h
  · rename_i hskip
    simp only [Except.ok.injEq, Prod.mk.injEq] at h
    obtain ⟨-, rfl⟩ := h
    exact Or.inl hskip
  · split at h
    · exact absurd h (by simp)
    · rename_i filename t hglob
      split at h
      · rename_i hload
        split at h
        · rename_i hrv
          simp only [Except.ok.injEq, Prod.mk.injEq] at h
          obtain ⟨-, rfl⟩ := h
          refine Or.inr ⟨by simp [hglob], by simp [hglob, hload], fun hge => ?_⟩
          omega
        · rename_i hrv
          simp only [Except.ok.injEq, Prod.mk.injEq] at h
          obtain ⟨-, rfl⟩ := h
          refine Or.inr ⟨by simp [hglob], by simp [hglob, hload], fun _ => ?_⟩
          exact (mem_addReg fid fid st).mpr (Or.inl rfl)
      · exact absurd h (by simp)

/-- After a completed pass, every catalog filter satisfies the per-filter
guarantee of `initOne_cases` with respect to the final state. -/
theorem initFiltersAux_stable (env : HostEnv) :
    ∀ (L : List (String × Int)) (st : HostState) (fs : List (String × String))
      (st1 : HostState), initFiltersAux env L st = .ok (fs, st1) →
      ∀ p ∈ L,
        (shouldCheckAvailability env.hdf5_version = true ∧ p.2 ∈ st1.registered) ∨
        (env.glob p.1 ≠ [] ∧ env.load_ok (artifactOf env p) = true ∧
          (0 ≤ retvalOf env p.1 → p.2 ∈ st1.registered)) := by
  intro L
  induction L with
  | nil =>
    intro st fs st1 h p hp
    exact absurd hp (List.not_mem_nil p)
  | cons q rest ih =>
    obtain ⟨name, fid⟩ := q
    intro st fs st1 h p hp
    unfold initFiltersAux at h
    split at h
    · exact absurd h (by simp)
    · rename_i st' hone
      rcases List.mem_cons.mp hp with rfl | hp'
      · have hmono := initFiltersAux_mono env rest st' fs st1 h
        rcases initOne_cases env st name fid none st' hone with ⟨hg, hm⟩ | ⟨h1, h2, h3⟩
        · exact Or.inl ⟨hg, hmono fid hm⟩
        · exact Or.inr ⟨h1, h2, fun hge => hmono fid (h3 hge)⟩
      · exact ih st' fs st1 h p hp'
    · rename_i pr st' hone
      split at h
      · exact absurd h (by simp)
      · rename_i ps st'' htail
        simp only [Except.ok.injEq, Prod.mk.injEq] at h
        obtain ⟨-, rfl⟩ := h
        rcases List.mem_cons.mp hp with rfl | hp'
        · have hmono := initFiltersAux_mono env rest st' ps st'' htail
          rcases initOne_cases env st name fid (some pr) st' hone with ⟨hg, hm⟩ | ⟨h1, h2, h3⟩
          · exact Or.inl ⟨hg, hmono fid hm⟩
          · exact Or.inr ⟨h1, h2, fun hge => hmono fid (h3 hge)⟩
        · exact ih st' ps st'' htail p hp'

/-- A pass started in a state already satisfying the per-filter guarantee
completes without error and leaves the state unchanged. -/
theorem initFiltersAux_rerun (env : HostEnv) :
    ∀ (L : List (String × Int)) (st2 : HostState),
      (∀ p ∈ L,
        (shouldCheckAvailability env.hdf5_version = true ∧ p.2 ∈ st2.registered) ∨
        (env.glob p.1 ≠ [] ∧ env.load_ok (artifactOf env p) = true ∧
          (0 ≤ retvalOf env p.1 → p.2 ∈ st2.registered))) →
      ∃ fs2, initFiltersAux env L st2 = .ok (fs2, st2) := by
  intro L
  induction L with
  | nil => exact fun st2 _ => ⟨[], rfl⟩
  | cons q rest ih =>
    obtain ⟨name, fid⟩ := q
    intro st2 hp
    have hhead := hp (name, fid) (List.mem_cons_self _ _)
    dsimp only at hhead
    obtain ⟨fs2, hrest⟩ := ih st2 (fun p hp' => hp p (List.mem_cons_of_mem _ hp'))
    by_cases hskip : shouldCheckAvailability env.hdf5_version = true ∧ fid ∈ st2.registered
    · have h1 : initOne env st2 name fid = .ok (none, st2) := by
        unfold initOne
        rw [if_pos hskip]
      refine ⟨fs2, ?_⟩
      simp only [initFiltersAux, h1]
      exact hrest
    · rcases hhead with h | ⟨hglob, hload, hret⟩
      · exact absurd h hskip
      · obtain ⟨f, t, hf⟩ : ∃ f t, env.glob name = f :: t := by
          cases hg : env.glob name with
          | nil => exact absurd hg hglob
          | cons f t => exact ⟨f, t, rfl⟩
        have hload' : env.load_ok f = true := by
          unfold artifactOf at hload
          rw [hf] at hload
          simpa using hload
        by_cases hrv : retvalOf env name < 0
        · have h1 : initOne env st2 name fid = .ok (none, st2) := by
            unfold initOne
            rw [if_neg hskip]
            simp only [hf, hload', if_true, if_pos hrv]
          refine ⟨fs2, ?_⟩
          simp only [initFiltersAux, h1]
          exact hrest
        · have hmem : fid ∈ st2.registered := hret (by omega)
          have hadd : addReg fid st2 = st2 := by
            unfold addReg
            rw [if_pos hmem]
          have h1 : initOne env st2 name fid = .ok (some (f, f), st2) := by
            unfold initOne
            rw [if_neg hskip]
            simp only [hf, hload', if_true, if_neg hrv, hadd]
          refine ⟨(f, f) :: fs2, ?_⟩
          simp only [initFiltersAux, h1, hrest]

/-- `newlyLoaded` is unaffected by registering a different filter's ID. -/
theorem newlyLoaded_addReg (env : HostEnv) (st : HostState) (fid : Int)
    (q : String × Int) (hne : q.2 ≠ fid) :
    newlyLoaded env (addReg fid st) q = newlyLoaded env st q := by
  simp [newlyLoaded, mem_addReg, hne]

/-- When every catalog artifact resolves and loads, the pass completes and
yields exactly the not-skipped, successfully initialized filters, keyed by
artifact filename, in catalog order. -/
theorem initFiltersAux_characterization (env : HostEnv) :
    ∀ (L : List (String × Int)) (st : HostState),
      (∀ p ∈ L, env.glob p.1 ≠ [] ∧ env.load_ok (artifactOf env p) = true) →
      (L.map Prod.snd).Nodup →
      ∃ st1, initFiltersAux env L st =
        .ok ((L.filter (newlyLoaded env st)).map
          (fun p => (artifactOf env p, artifactOf env p)), st1) := by
  intro L
  induction L with
  | nil => exact fun st _ _ => ⟨st, rfl⟩
  | cons q rest ih =>
    obtain ⟨name, fid⟩ := q
    intro st hgood hnd
    obtain ⟨hglob, hload⟩ := hgood (name, fid) (List.mem_cons_self _ _)
    have hgood' : ∀ p ∈ rest, env.glob p.1 ≠ [] ∧ env.load_ok (artifactOf env p) = true :=
      fun p hp => hgood p (List.mem_cons_of_mem _ hp)
    simp only [List.map_cons, List.nodup_cons] at hnd
    obtain ⟨hfid, hnd'⟩ := hnd
    obtain ⟨f, t, hf⟩ : ∃ f t, env.glob name = f :: t := by
      cases hg : env.glob name with
      | nil => exact absurd hg hglob
      | cons f t => exact ⟨f, t, rfl⟩
    have hload' : env.load_ok f = true := by
      unfold artifactOf at hload
      rw [hf] at hload
      simpa using hload
    have hart : artifactOf env (name, fid) = f := by
      unfold artifactOf
      rw [hf]
      rfl
    by_cases hskip : shouldCheckAvailability env.hdf5_version = true ∧ fid ∈ st.registered
    · have h1 : initOne env st name fid = .ok (none, st) := by
        unfold initOne
        rw [if_pos hskip]
      have hnew : newlyLoaded env st (name, fid) = false := by
        simp [newlyLoaded, hskip.1, hskip.2]
      obtain ⟨st1, hrest⟩ := ih st hgood' hnd'
      refine ⟨st1, ?_⟩
      simp only [initFiltersAux, h1, List.filter_cons, hnew]
      exact hrest
    · by_cases hrv : retvalOf env name < 0
      · have h1 : initOne env st name fid = .ok (none, st) := by
          unfold initOne
          rw [if_neg hskip]
          simp only [hf, hload', if_true, if_pos hrv]
        have hnew : newlyLoaded env st (name, fid) = false := by
          simp only [newlyLoaded, Bool.and_eq_false_iff]
          right
          simpa using hrv
        obtain ⟨st1, hrest⟩ := ih st hgood' hnd'
        refine ⟨st1, ?_⟩
        simp only [initFiltersAux, h1, List.filter_cons, hnew]
        exact hrest
      · have h1 : initOne env st name fid = .ok (some (f, f), addReg fid st) := by
          unfold initOne
          rw [if_neg hskip]
          simp only [hf, hload', if_true, if_neg hrv]
        have hnew : newlyLoaded env st (name, fid) = true := by
          simp only [newlyLoaded, Bool.and_eq_true, Bool.not_eq_true']
          constructor
          · rw [Bool.and_eq_false_iff]
            by_cases hg : shouldCheckAvailability env.hdf5_version = true
            · right
              simpa using fun hm => hskip ⟨hg, hm⟩
            · left
              simpa using hg
          · simpa using not_lt.mp hrv
        obtain ⟨st1, hrest⟩ := ih (addReg fid st) hgood' hnd'
        have hfilt : rest.filter (newlyLoaded env (addReg fid st)) =
            rest.filter (newlyLoaded env st) := by
          apply List.filter_congr
          intro p hp
          exact newlyLoaded_addReg env st fid p (by
            intro hcontra
            exact hfid (hcontra ▸ List.mem_map_of_mem Prod.snd hp))
        rw [hfilt] at hrest
        refine ⟨st1, ?_⟩
        simp only [initFiltersAux, h1, hrest, List.filter_cons, hnew, if_true,
          List.map_cons, hart]

/-- C2 (amended): only `InitError` (a negative native entry-point status) is
isolated per filter — when every catalog artifact resolves and loads, the
pass completes and every not-skipped filter with a non-negative status is in
the result, whatever the other filters' statuses; but `NotFound` (empty glob)
and `LoadError` (dynamic-load failure) are not caught: either one aborts the
whole pass with the corresponding exception (shown here for the first
catalog entry, `blosc`). -/
theorem C2_failure_isolation :
    (∀ (env : HostEnv) (st : HostState),
      (∀ p ∈ FILTERS, env.glob p.1 ≠ [] ∧ env.load_ok (artifactOf env p) = true) →
      ∃ fs st1, _init_filters env st = .ok (fs, st1) ∧
        ∀ p ∈ FILTERS, newlyLoaded env st p = true →
          artifactOf env p ∈ fs.map Prod.fst) ∧
    (∀ (env : HostEnv) (st : HostState),
      ¬(shouldCheckAvailability env.hdf5_version = true ∧ BLOSC ∈ st.registered) →
      env.glob "blosc" = [] → _init_filters env st = .error .indexError) ∧
    (∀ (env : HostEnv) (st : HostState) (f : String) (t : List String),
      ¬(shouldCheckAvailability env.hdf5_version = true ∧ BLOSC ∈ st.registered) →
      env.glob "blosc" = f :: t → env.load_ok f = false →
      _init_filters env st = .error .osError) := by
  refine ⟨?_, ?_, ?_⟩
  · intro env st hgood
    obtain ⟨st1, hrun⟩ := initFiltersAux_characterization env FILTERS st hgood (by decide)
    refine ⟨_, st1, hrun, ?_⟩
    intro p hp hnew
    exact List.mem_map_of_mem Prod.fst (List.mem_map_of_mem _ (List.mem_filter.mpr ⟨hp, hnew⟩))
  · intro env st hskip hglob
    have h1 : initOne env st "blosc" BLOSC = .error .indexError := by
      unfold initOne
      rw [if_neg hskip]
      simp only [hglob]
    simp only [_init_filters, FILTERS, initFiltersAux, h1]
  · intro env st f t hskip hglob hload
    have h1 : initOne env st "blosc" BLOSC = .error .osError := by
      unfold initOne
      rw [if_neg hskip]
      simp only [hglob, hload]
      rfl
    simp only [_init_filters, FILTERS, initFiltersAux, h1]

/-- C2 counterexample: a missing `blosc` artifact (`NotFound`) aborts the
whole pass with `IndexError`, and an unloadable `blosc` artifact
(`LoadError`) aborts it with `OSError`; in both cases the remaining catalog
filters are not loaded, refuting the claim that every per-filter failure is
isolated. -/
theorem C2_failure_isolation_cex :
    _init_filters envNF ⟨[]⟩ = .error .indexError ∧
    _init_filters envLE ⟨[]⟩ = .error .osError := ⟨rfl, rfl⟩

/-- Witness for C2: on a host where only `blosc`'s native entry point fails
(`envIF`), the pass still completes and the other two filters' artifacts are
in the result. -/
theorem C2_failure_isolation_witness :
    ∃ fs st1, _init_filters envIF ⟨[]⟩ = .ok (fs, st1) ∧
      "/plugins/libh5bshuf.so" ∈ fs.map Prod.fst ∧
      "/plugins/libh5lz4.so" ∈ fs.map Prod.fst := by
  obtain ⟨fs, st1, h1, h2⟩ := C2_failure_isolation.1 envIF ⟨[]⟩ (by decide)
  exact ⟨fs, st1, h1, h2 ("bshuf", BSHUF) (by decide) (by decide),
    h2 ("lz4", LZ4) (by decide) (by decide)⟩

/-- C7 (amended): when every catalog artifact resolves and loads, the pass
returns the association list keyed by the **artifact filename** (not the
filter name) whose entries are exactly the filters newly and successfully
loaded in this pass: a filter skipped because the gate permitted the
availability query and the host already reported it registered is absent,
and a filter whose native initialization failed is absent. -/
theorem C7_registry_map (env : HostEnv) (st : HostState)
    (h : ∀ p ∈ FILTERS, env.glob p.1 ≠ [] ∧ env.load_ok (artifactOf env p) = true) :
    ∃ st1, _init_filters env st =
      .ok ((FILTERS.filter (newlyLoaded env st)).map
        (fun p => (artifactOf env p, artifactOf env p)), st1) :=
  initFiltersAux_characterization env FILTERS st h (by decide)

/-- C7 counterexample: on a healthy host the returned map's keys are the
artifact filenames, and the filter name `blosc` is not a key even though
`blosc` was newly and successfully loaded — refuting "keyed by filter
name". -/
theorem C7_registry_map_cex :
    _init_filters env0 ⟨[]⟩ =
      .ok ([("/plugins/libh5blosc.so", "/plugins/libh5blosc.so"),
        ("/plugins/libh5bshuf.so", "/plugins/libh5bshuf.so"),
        ("/plugins/libh5lz4.so", "/plugins/libh5lz4.so")], ⟨[32004, 32008, 32001]⟩) ∧
    "blosc" ∉ ([("/plugins/libh5blosc.so", "/plugins/libh5blosc.so"),
        ("/plugins/libh5bshuf.so", "/plugins/libh5bshuf.so"),
        ("/plugins/libh5lz4.so", "/plugins/libh5lz4.so")] :
      List (String × String)).map Prod.fst := ⟨rfl, by decide⟩

/-- Witness for C7 on the healthy host `env0` from the empty state. -/
theorem C7_registry_map_witness :
    ∃ st1, _init_filters env0 ⟨[]⟩ =
      .ok ((FILTERS.filter (newlyLoaded env0 ⟨[]⟩)).map
        (fun p => (artifactOf env0 p, artifactOf env0 p)), st1) :=
  C7_registry_map env0 ⟨[]⟩ (by decide)

/-- C8: the registration pass is idempotent — if a first pass completes,
a second pass over the same catalog, started from the first pass's final
host state, completes without error and leaves that state (the process's
set of loaded/registered filters) unchanged, whatever the version gate
decides. -/
theorem C8_idempotent (env : HostEnv) (st : HostState) (fs : List (String × String))
    (st1 : HostState) (h : _init_filters env st = .ok (fs, st1)) :
    ∃ fs2, _init_filters env st1 = .ok (fs2, st1) :=
  initFiltersAux_rerun env FILTERS st1 (initFiltersAux_stable env FILTERS st fs st1 h)

/-- Witness for C8: both passes on the healthy host `env0`. -/
theorem C8_idempotent_witness :
    ∃ fs2, _init_filters env0 ⟨[32004, 32008, 32001]⟩ =
      .ok (fs2, ⟨[32004, 32008, 32001]⟩) :=
  C8_idempotent env0 ⟨[]⟩
    [("/plugins/libh5blosc.so", "/plugins/libh5blosc.so"),
      ("/plugins/libh5bshuf.so", "/plugins/libh5bshuf.so"),
      ("/plugins/libh5lz4.so", "/plugins/libh5lz4.so")]
    ⟨[32004, 32008, 32001]⟩ rfl

/-- C9 (code bug): `_bshuf_options` only asserts `nelems % 8 == 0` with no
lower bound (unlike `_lz4_options`, which does check `0 <= nbytes`), so the
negative multiple `-8` is silently emitted in the options tuple instead of
raising a configuration error — violating the invariant that emitted
options are non-negative and in range. -/
theorem C9_negative_option_emitted :
    _bshuf_options (.int (-8)) true = .ok [-8, 2] ∧ (-8 : Int) < 0 := ⟨rfl, by decide⟩

/-- C10: each encoder coerces with `int(...)` before validating, so
non-integer inputs whose truncation toward zero lands in range are accepted:
every non-negative rational (Python float) `q` with `int(q) ≤ 0x7E000000`
passes `_lz4_options`, which returns the truncation; every value whose
`int(...)` coercion lands in `0..9` passes `_blosc_options` as a level; in
particular the numeric string `'5'` is accepted as level 5. -/
theorem C10_int_coercion :
    (∀ q : ℚ, 0 ≤ q → pyTrunc q ≤ 0x7E000000 →
      _lz4_options (.rat q) = .ok [pyTrunc q]) ∧
    (∀ (v : PyVal) (n : Int), pyInt v = .ok n → 0 ≤ n → n ≤ 9 →
      _blosc_options v (some "byte") "blosclz" = .ok [0, 0, 0, 0, n, 1, 0]) ∧
    _blosc_options (.str "5") (some "byte") "blosclz" = .ok [0, 0, 0, 0, 5, 1, 0] := by
  refine ⟨?_, ?_, by rfl⟩
  · intro q h0 h1
    have hnum : 0 ≤ q.num := Rat.num_nonneg.mpr h0
    have htr : 0 ≤ pyTrunc q := by
      unfold pyTrunc
      rw [if_pos hnum]
      exact Int.natCast_nonneg _
    simp [_lz4_options, pyInt, htr, h1]
  · intro v n hv h0 h9
    simp [_blosc_options, hv, _blosc_shuffle, _blosc_compression, h0, h9]

/-- Witness for C10 at the float `5/2`, truncated to `2`. -/
theorem C10_int_coercion_witness :
    _lz4_options (.rat (mkRat 5 2)) = .ok [pyTrunc (mkRat 5 2)] :=
  C10_int_coercion.1 (mkRat 5 2) (by decide) (by decide)

end Hdf5plugin
